import Mathlib

/-!
Verification of the enrichment dispatcher (`apiServerEntry` and friends) and
the index writer (`writeIndex`) of the home-gallery repository, as a shallow
embedding of the JavaScript sources.
-/

/-! ### Data model of the extractor (api-server entry) -/

/-- The fixed error threshold of the Error Budget (`ERROR_THRESHOLD = 5`). -/
def ERROR_THRESHOLD : Nat := 5

/-- The public api server URL constant. -/
def PUBLIC_API_SERVER : String := "https://api.home-gallery.org"

/-- A catalog entry; the dispatcher only inspects its `type` classifier. -/
structure Entry where
  type : String
deriving DecidableEq, Repr

/-- The Entry Store, consumed through its `hasEntryFile` membership check.
Reads and writes are modelled by the task environment below. -/
structure Storage where
  hasEntryFile : Entry → String → Bool

/-- `getEntryFileBySuffixes(storage, entry, suffixes)`: the first suffix of
`suffixes` for which `storage.hasEntryFile(entry, suffix)` holds. -/
def getEntryFileBySuffixes (storage : Storage) (entry : Entry) (suffixes : List String) :
    Option String :=
  suffixes.find? (fun suffix => storage.hasEntryFile entry suffix)

/-- The Task Predicate `test` of `apiServerEntry`, with the closure variable
`currentErrors` made an explicit argument. -/
def test (storage : Storage) (imagePreviewSuffixes : List String) (entrySuffix : String)
    (currentErrors : Nat) (entry : Entry) : Bool :=
  if currentErrors > ERROR_THRESHOLD then
    false
  else if (getEntryFileBySuffixes storage entry imagePreviewSuffixes).isNone
      || storage.hasEntryFile entry entrySuffix then
    false
  else if entry.type == "image" || entry.type == "rawImage" then
    true
  else
    false

/-- The mutable state of one dispatcher instance: the `currentErrors` counter
together with the number of times the "too many errors" warning was logged. -/
structure BudgetState where
  currentErrors : Nat
  warnCount : Nat
deriving DecidableEq, Repr

/-- `addError`: increments `currentErrors`; logs the "too many errors" warning
whenever the new value exceeds `ERROR_THRESHOLD`. -/
def addError (s : BudgetState) : BudgetState :=
  let currentErrors := s.currentErrors + 1
  { currentErrors := currentErrors
    warnCount := if currentErrors > ERROR_THRESHOLD then s.warnCount + 1 else s.warnCount }

/-- The success path of `task`: `if (currentErrors > 0) currentErrors--`,
the decrement executed after a successful artifact write. -/
def recordSuccess (s : BudgetState) : BudgetState :=
  if s.currentErrors > 0 then { s with currentErrors := s.currentErrors - 1 } else s

/-! ### The Enrichment Task -/

/-- Outcome of `storage.readEntryFile` for the dispatched entry. -/
inductive ReadResult where
  | ok (buffer : List Nat)
  | err (msg : String)
deriving DecidableEq, Repr

/-- Outcome of the `request` call: a transport error, or a response with an
HTTP status code and a body. -/
inductive RequestResult where
  | err (msg : String)
  | res (statusCode : Int) (body : List Nat)
deriving DecidableEq, Repr

/-- Outcome of `storage.writeEntryFile` for the response body. -/
inductive WriteResult where
  | ok
  | err (msg : String)
deriving DecidableEq, Repr

/-- The environment one run of `task` executes in: the results the three
I/O callbacks deliver. -/
structure TaskEnv where
  readResult : ReadResult
  requestResult : RequestResult
  writeResult : WriteResult
deriving DecidableEq, Repr

/-- Observable outcome of one run of `task`: the budget state after the run,
the arguments of every invocation of the completion callback `cb`, and the
artifact writes attempted (output suffix paired with the written body). -/
structure TaskOutcome where
  budget : BudgetState
  cbCalls : List (Option String)
  writes : List (String × List Nat)
deriving DecidableEq, Repr

/-- The Enrichment Task `task` of `apiServerEntry`: read the preview artifact,
POST it to the api server, write the response body under `entrySuffix`;
failures are logged and swallowed, the Error Budget is updated only on
remote-call outcomes. -/
def task (env : TaskEnv) (entrySuffix : String) (s : BudgetState) : TaskOutcome :=
  match env.readResult with
  | ReadResult.err _ => { budget := s, cbCalls := [none], writes := [] }
  | ReadResult.ok _buffer =>
    match env.requestResult with
    | RequestResult.err _ => { budget := addError s, cbCalls := [none], writes := [] }
    | RequestResult.res statusCode body =>
      if statusCode < 100 ∨ statusCode ≥ 300 then
        { budget := addError s, cbCalls := [none], writes := [] }
      else
        match env.writeResult with
        | WriteResult.err _ =>
          { budget := s, cbCalls := [none], writes := [(entrySuffix, body)] }
        | WriteResult.ok =>
          { budget := recordSuccess s, cbCalls := [none], writes := [(entrySuffix, body)] }

/-- The remote call of the task failed: the read succeeded and the request
either failed at transport level or returned a status outside `[100, 300)`. -/
def remoteFailed (env : TaskEnv) : Bool :=
  match env.readResult with
  | ReadResult.err _ => false
  | ReadResult.ok _ =>
    match env.requestResult with
    | RequestResult.err _ => true
    | RequestResult.res statusCode _ => decide (statusCode < 100 ∨ statusCode ≥ 300)

/-- The response body was successfully written under the output suffix. -/
def writeSucceeded (env : TaskEnv) : Bool :=
  match env.readResult with
  | ReadResult.err _ => false
  | ReadResult.ok _ =>
    match env.requestResult with
    | RequestResult.err _ => false
    | RequestResult.res statusCode _ =>
      if statusCode < 100 ∨ statusCode ≥ 300 then false
      else
        match env.writeResult with
        | WriteResult.ok => true
        | WriteResult.err _ => false

/-! ### Configuration and feature adapters -/

/-- The value of the `disable` setting when present: a single feature name
string or a list of feature names. -/
inductive DisableValue where
  | str (s : String)
  | list (l : List String)
deriving DecidableEq, Repr

/-- The `extractor.apiServer` configuration block. -/
structure ApiServerConfig where
  url : Option String
  timeout : Option Nat
  concurrent : Option Nat
  disable : Option DisableValue
deriving DecidableEq, Repr

/-- The `extractor` configuration block. -/
structure ExtractorConfig where
  apiServer : Option ApiServerConfig
deriving DecidableEq, Repr

/-- The configuration object; every nesting level may be absent. -/
structure Config where
  extractor : Option ExtractorConfig
deriving DecidableEq, Repr

/-- The optional chain `config?.extractor?.apiServer`. -/
def apiServerOf (config : Option Config) : Option ApiServerConfig :=
  match config with
  | none => none
  | some c =>
    match c.extractor with
    | none => none
    | some e => e.apiServer

/-- `isDisabled(config, feature)`: reads `config?.extractor?.apiServer?.disable
|| []` (an absent or empty-string value falls back to the empty list, since
both are falsy in JavaScript) and checks membership or loose equality. -/
def isDisabled (config : Option Config) (feature : String) : Bool :=
  let disable : DisableValue :=
    match (apiServerOf config).bind (fun api => api.disable) with
    | none => DisableValue.list []
    | some (DisableValue.str s) => if s == "" then DisableValue.list [] else DisableValue.str s
    | some d => d
  match disable with
  | DisableValue.list l => l.contains feature
  | DisableValue.str s => s == feature

/-- The feature name appears in the `disable` setting, either as the single
string value or as a member of the list value. -/
def featureInDisable (config : Option Config) (feature : String) : Prop :=
  (apiServerOf config).bind (fun api => api.disable) = some (DisableValue.str feature) ∨
  ∃ l, (apiServerOf config).bind (fun api => api.disable) = some (DisableValue.list l) ∧
    feature ∈ l

/-- The parameters a feature adapter hands to `apiServerEntry`. -/
structure ApiParams where
  name : String
  apiServerUrl : Option String
  apiPath : String
  imagePreviewSuffixes : List String
  entrySuffix : String
  concurrent : Option Nat
  timeout : Option Nat
deriving DecidableEq, Repr

/-- A stream stage: either the pass-through `noop` stage
(`through((entry, _, cb) => cb(null, entry))`) or the bounded dispatcher
built by `apiServerEntry`. -/
inductive Stage where
  | noop
  | apiServer (params : ApiParams)
deriving DecidableEq, Repr

/-- How a stage forwards one entry downstream: the error and the entry it
hands to the stream callback. Both stages pass every entry through
unchanged (enrichment is a storage side effect). -/
def stageForward (stage : Stage) (entry : Entry) : Option String × Entry :=
  match stage with
  | Stage.noop => (none, entry)
  | Stage.apiServer _ => (none, entry)

/-- How many HTTP requests a stage issues for one entry: the `noop` stage
never calls `request`; the dispatcher calls it once when the Task Predicate
admits the entry and the preview read succeeds. -/
def stageHttpCalls (stage : Stage) (storage : Storage) (currentErrors : Nat)
    (entry : Entry) (env : TaskEnv) : Nat :=
  match stage with
  | Stage.noop => 0
  | Stage.apiServer params =>
    if test storage params.imagePreviewSuffixes params.entrySuffix currentErrors entry then
      match env.readResult with
      | ReadResult.err _ => 0
      | ReadResult.ok _ => 1
    else 0

/-- Modelled from the spec: `sizeToImagePreviewSuffix` lives in
`image-preview.js`, which is not among the sources; the spec names preview
artifacts like `preview-400.jpg` after their size. -/
def sizeToImagePreviewSuffix (size : Nat) : String :=
  let sizeStr := toString size
  "image-preview-" ++ sizeStr ++ ".jpg"

/-- `apiServerPreviewSizeFilter`: keep preview sizes of at most 800. -/
def apiServerPreviewSizeFilter (size : Nat) : Bool := size ≤ 800

/-- Common extractor data consumed by the adapters. -/
structure Common where
  imagePreviewSizes : List Nat
deriving DecidableEq, Repr

/-- Builds the dispatcher parameters an enabled adapter passes to
`apiServerEntry`; accessing `config.extractor.apiServer` without optional
chaining throws when the block is absent, modelled by `Except.error`. -/
def adapterStage (featureName : String) (apiPath : String) (entrySuffix : String)
    (common : Common) (config : Option Config) : Except String Stage :=
  match apiServerOf config with
  | none => Except.error "TypeError: cannot read properties of undefined"
  | some apiServer =>
    Except.ok (Stage.apiServer
      { name := featureName
        apiServerUrl := apiServer.url
        apiPath := apiPath
        imagePreviewSuffixes :=
          (common.imagePreviewSizes.filter apiServerPreviewSizeFilter).map
            sizeToImagePreviewSuffix
        entrySuffix := entrySuffix
        concurrent := apiServer.concurrent
        timeout := apiServer.timeout })

/-- The `similarEmbeddings` feature adapter. -/
def similarEmbeddings (_storage : Storage) (common : Common) (config : Option Config) :
    Except String Stage :=
  if isDisabled config "similarDetection" then Except.ok Stage.noop
  else adapterStage "similarity embeddings" "/embeddings" "similarity-embeddings.json" common config

/-- The `objectDetection` feature adapter. -/
def objectDetection (_storage : Storage) (common : Common) (config : Option Config) :
    Except String Stage :=
  if isDisabled config "objectDetection" then Except.ok Stage.noop
  else adapterStage "object detection" "/objects" "objects.json" common config

/-- The `faceDetection` feature adapter. -/
def faceDetection (_storage : Storage) (common : Common) (config : Option Config) :
    Except String Stage :=
  if isDisabled config "faceDetection" then Except.ok Stage.noop
  else adapterStage "face detection" "/faces" "faces.json" common config

/-- A log line: severity level and message. -/
structure LogEvent where
  level : String
  msg : String
deriving DecidableEq, Repr

/-- `logPublicApiPrivacyHint(config)`: destructures
`config?.extractor?.apiServer` (throwing a `TypeError` when that chain is
undefined), logs a privacy warning for the public api server or a debug
confirmation otherwise, and returns the `noop` pass-through stage. -/
def logPublicApiPrivacyHint (config : Option Config) :
    Except String (List LogEvent × Stage) :=
  match apiServerOf config with
  | none => Except.error "TypeError: cannot destructure properties of undefined"
  | some apiServer =>
    let urlHint : LogEvent :=
      if (apiServer.url.map (fun u => u.startsWith PUBLIC_API_SERVER)).getD false then
        { level := "warn", msg := "You are using the public api server" }
      else
        { level := "debug", msg := "Use api server" }
    let connHint : LogEvent :=
      { level := "trace", msg := "Use api server with concurrent connections and timeout" }
    Except.ok ([urlHint, connHint], Stage.noop)

/-! ### The index writer -/

/-- Strict lexicographic order on character sequences (string comparison). -/
def charListLt : List Char → List Char → Bool
  | _, [] => false
  | [], _ :: _ => true
  | a :: as, b :: bs =>
    if a < b then true else if b < a then false else charListLt as bs

/-- Reflexive lexicographic order on character sequences. -/
def charListLe : List Char → List Char → Bool
  | [], _ => true
  | _ :: _, [] => false
  | a :: as, b :: bs =>
    if a < b then true else if b < a then false else charListLe as bs

/-- One record of the file index: the fields the sort comparator looks at. -/
structure IndexEntry where
  dir : String
  file : String
deriving DecidableEq, Repr

/-- Modelled from the spec: the comparator `byDirDescFileAsc` lives in
`packages/index/src/utils.js`, which is not among the sources; the spec says
the persisted data is the entries "sorted by directory descending, then file
ascending". Rendered as the order relation the sort is stable for: `a` may
precede `b` iff `a.dir > b.dir`, or the directories are equal and
`a.file ≤ b.file`. -/
def byDirDescFileAsc (a b : IndexEntry) : Bool :=
  if a.dir = b.dir then charListLe a.file.data b.file.data
  else charListLt b.dir.data a.dir.data

/-- `entries.sort(byDirDescFileAsc)`: JavaScript's stable in-place sort,
modelled by a stable merge sort with the same comparator. -/
def sortEntries (entries : List IndexEntry) : List IndexEntry :=
  entries.mergeSort byDirDescFileAsc

/-- Models Node's `path.resolve(directory)` against a current working
directory: absolute paths are kept, relative ones are joined to `cwd`. -/
def resolvePath (cwd path : String) : String :=
  if path.startsWith "/" then path else cwd ++ "/" ++ path

/-- The options argument of `writeIndex`. -/
structure IndexOptions where
  dryRun : Bool
deriving DecidableEq, Repr

/-- The persisted index structure; `data` is a reference (the heap address of
the caller's entries array). -/
structure FileIndex where
  type : String
  created : String
  base : String
  data : Nat
deriving DecidableEq, Repr

/-- Result of one `writeIndex` call: the returned index, the heap of entry
arrays after the call (JavaScript's `Array.prototype.sort` mutates its
receiver), and the gzip-serialized file writes performed. -/
structure WriteIndexResult where
  index : FileIndex
  heap : Nat → List IndexEntry
  written : List (String × FileIndex)

/-- `writeIndex(directory, filename, entries, options)`: builds the index
structure over the in-place sorted entries array, returns it directly on
`dryRun`, and otherwise writes it serialized and compressed to `filename`
before returning it. `cwd` feeds `path.resolve`, `now` the `created`
timestamp, and `entriesRef`/`heap` model the entries array reference. -/
def writeIndex (cwd now directory filename : String) (entriesRef : Nat)
    (heap : Nat → List IndexEntry) (options : IndexOptions) : WriteIndexResult :=
  let sorted := sortEntries (heap entriesRef)
  let heapAfter := fun r => if r = entriesRef then sorted else heap r
  let index : FileIndex :=
    { type := "home-gallery/fileindex@1.0"
      created := now
      base := resolvePath cwd directory
      data := entriesRef }
  if options.dryRun then
    { index := index, heap := heapAfter, written := [] }
  else
    { index := index, heap := heapAfter, written := [(filename, index)] }

/-! ### Helper lemmas -/

theorem charListLt_irrefl : ∀ l, charListLt l l = false := by
  intro l
  induction l with
  | nil => rfl
  | cons a as ih => simp [charListLt, lt_irrefl, ih]

theorem charListLt_ne : ∀ l1 l2, charListLt l1 l2 = true → l1 ≠ l2 := by
  intro l1 l2 h heq
  subst heq
  rw [charListLt_irrefl] at h
  exact Bool.false_ne_true h

theorem charListLt_trans :
    ∀ l1 l2 l3, charListLt l1 l2 = true → charListLt l2 l3 = true →
      charListLt l1 l3 = true := by
  intro l1
  induction l1 with
  | nil =>
    intro l2 l3 h12 h23
    cases l2 with
    | nil => simp [charListLt] at h12
    | cons b bs =>
      cases l3 with
      | nil => simp [charListLt] at h23
      | cons c cs => simp [charListLt]
  | cons a as ih =>
    intro l2 l3 h12 h23
    cases l2 with
    | nil => simp [charListLt] at h12
    | cons b bs =>
      cases l3 with
      | nil => simp [charListLt] at h23
      | cons c cs =>
        by_cases hab : a < b
        · by_cases hbc : b < c
          · simp [charListLt, lt_trans hab hbc]
          · by_cases hcb : c < b
            · simp [charListLt, hbc, hcb] at h23
            · have hbc2 : b = c := le_antisymm (not_lt.mp hcb) (not_lt.mp hbc)
              subst hbc2
              simp [charListLt, hab]
        · by_cases hba : b < a
          · simp [charListLt, hab, hba] at h12
          · have hab2 : a = b := le_antisymm (not_lt.mp hba) (not_lt.mp hab)
            subst hab2
            simp only [charListLt, lt_irrefl, if_false] at h12
            by_cases hac : a < c
            · simp [charListLt, hac]
            · by_cases hca : c < a
              · simp [charListLt, hac, hca] at h23
              · have hac2 : a = c := le_antisymm (not_lt.mp hca) (not_lt.mp hac)
                subst hac2
                simp only [charListLt, lt_irrefl, if_false] at h23 ⊢
                exact ih bs cs h12 h23

theorem charListLt_connex :
    ∀ l1 l2, l1 ≠ l2 → (charListLt l1 l2 || charListLt l2 l1) = true := by
  intro l1
  induction l1 with
  | nil =>
    intro l2 hne
    cases l2 with
    | nil => exact absurd rfl hne
    | cons b bs => simp [charListLt]
  | cons a as ih =>
    intro l2 hne
    cases l2 with
    | nil => simp [charListLt]
    | cons b bs =>
      by_cases hab : a < b
      · simp [charListLt, hab]
      · by_cases hba : b < a
        · simp [charListLt, hab, hba]
        · have hab2 : a = b := le_antisymm (not_lt.mp hba) (not_lt.mp hab)
          subst hab2
          have hne2 : as ≠ bs := by
            intro h
            exact hne (by rw [h])
          simp only [charListLt, lt_irrefl, if_false]
          exact ih bs hne2

theorem charListLe_trans :
    ∀ l1 l2 l3, charListLe l1 l2 = true → charListLe l2 l3 = true →
      charListLe l1 l3 = true := by
  intro l1
  induction l1 with
  | nil => intro l2 l3 _ _; rfl
  | cons a as ih =>
    intro l2 l3 h12 h23
    cases l2 with
    | nil => simp [charListLe] at h12
    | cons b bs =>
      cases l3 with
      | nil => simp [charListLe] at h23
      | cons c cs =>
        by_cases hab : a < b
        · by_cases hbc : b < c
          · simp [charListLe, lt_trans hab hbc]
          · by_cases hcb : c < b
            · simp [charListLe, hbc, hcb] at h23
            · have hbc2 : b = c := le_antisymm (not_lt.mp hcb) (not_lt.mp hbc)
              subst hbc2
              simp [charListLe, hab]
        · by_cases hba : b < a
          · simp [charListLe, hab, hba] at h12
          · have hab2 : a = b := le_antisymm (not_lt.mp hba) (not_lt.mp hab)
            subst hab2
            simp only [charListLe, lt_irrefl, if_false] at h12
            by_cases hac : a < c
            · simp [charListLe, hac]
            · by_cases hca : c < a
              · simp [charListLe, hac, hca] at h23
              · have hac2 : a = c := le_antisymm (not_lt.mp hca) (not_lt.mp hac)
                subst hac2
                simp only [charListLe, lt_irrefl, if_false] at h23 ⊢
                exact ih bs cs h12 h23

theorem charListLe_total :
    ∀ l1 l2, (charListLe l1 l2 || charListLe l2 l1) = true := by
  intro l1
  induction l1 with
  | nil => intro l2; simp [charListLe]
  | cons a as ih =>
    intro l2
    cases l2 with
    | nil => simp [charListLe]
    | cons b bs =>
      by_cases hab : a < b
      · simp [charListLe, hab]
      · by_cases hba : b < a
        · simp [charListLe, hab, hba]
        · have hab2 : a = b := le_antisymm (not_lt.mp hba) (not_lt.mp hab)
          subst hab2
          simp only [charListLe, lt_irrefl, if_false]
          exact ih bs

theorem byDirDescFileAsc_trans :
    ∀ a b c, byDirDescFileAsc a b = true → byDirDescFileAsc b c = true →
      byDirDescFileAsc a c = true := by
  intro a b c hab hbc
  unfold byDirDescFileAsc at hab hbc ⊢
  by_cases h1 : a.dir = b.dir
  · by_cases h2 : b.dir = c.dir
    · rw [if_pos h1] at hab
      rw [if_pos h2] at hbc
      rw [if_pos (h1.trans h2)]
      exact charListLe_trans _ _ _ hab hbc
    · rw [if_neg h2] at hbc
      have h3 : a.dir ≠ c.dir := by
        intro he
        exact (charListLt_ne _ _ hbc) (congrArg String.data (he.symm.trans h1))
      rw [if_neg h3, h1]
      exact hbc
  · by_cases h2 : b.dir = c.dir
    · rw [if_neg h1] at hab
      have h3 : a.dir ≠ c.dir := by
        intro he
        exact (charListLt_ne _ _ hab) (congrArg String.data (h2.trans he.symm))
      rw [if_neg h3, ← h2]
      exact hab
    · rw [if_neg h1] at hab
      rw [if_neg h2] at hbc
      have hlt := charListLt_trans _ _ _ hbc hab
      have h3 : a.dir ≠ c.dir := fun he =>
        (charListLt_ne _ _ hlt) (congrArg String.data he.symm)
      rw [if_neg h3]
      exact hlt

theorem byDirDescFileAsc_total :
    ∀ a b, (byDirDescFileAsc a b || byDirDescFileAsc b a) = true := by
  intro a b
  unfold byDirDescFileAsc
  by_cases h : a.dir = b.dir
  · rw [if_pos h, if_pos h.symm]
    exact charListLe_total _ _
  · have h2 : b.dir ≠ a.dir := fun he => h he.symm
    rw [if_neg h, if_neg h2]
    have hne : b.dir.data ≠ a.dir.data := fun hd => h2 (String.ext hd)
    exact charListLt_connex _ _ hne

theorem sortEntries_perm (l : List IndexEntry) : (sortEntries l).Perm l :=
  List.mergeSort_perm l _

theorem sortEntries_sorted (l : List IndexEntry) :
    List.Pairwise (fun a b => byDirDescFileAsc a b = true) (sortEntries l) :=
  List.sorted_mergeSort byDirDescFileAsc_trans byDirDescFileAsc_total l

theorem test_true_iff (storage : Storage) (imagePreviewSuffixes : List String)
    (entrySuffix : String) (currentErrors : Nat) (entry : Entry) :
    test storage imagePreviewSuffixes entrySuffix currentErrors entry = true ↔
      (currentErrors ≤ ERROR_THRESHOLD ∧
       (getEntryFileBySuffixes storage entry imagePreviewSuffixes).isSome = true ∧
       storage.hasEntryFile entry entrySuffix = false ∧
       (entry.type = "image" ∨ entry.type = "rawImage")) := by
  unfold test
  cases hfind : getEntryFileBySuffixes storage entry imagePreviewSuffixes <;>
    split_ifs <;> simp_all

theorem test_false_of_tripped (storage : Storage) (imagePreviewSuffixes : List String)
    (entrySuffix : String) (currentErrors : Nat) (entry : Entry)
    (h : ERROR_THRESHOLD < currentErrors) :
    test storage imagePreviewSuffixes entrySuffix currentErrors entry = false := by
  unfold test
  rw [if_pos h]

/-! ### Claim theorems -/

/-- C1: the Task Predicate `test` returns true if and only if the Error
Budget count is at most the threshold 5, at least one configured input
suffix exists for the entry in the Entry Store, the output suffix does not
yet exist, and the entry's type is one of the supported media classifiers
(`image`, `rawImage`); in particular it returns false whenever the budget is
tripped, independent of the entry. -/
theorem test_eligibility_characterization (storage : Storage)
    (imagePreviewSuffixes : List String) (entrySuffix : String)
    (currentErrors : Nat) (entry : Entry) :
    (test storage imagePreviewSuffixes entrySuffix currentErrors entry = true ↔
      (currentErrors ≤ ERROR_THRESHOLD ∧
       (getEntryFileBySuffixes storage entry imagePreviewSuffixes).isSome = true ∧
       storage.hasEntryFile entry entrySuffix = false ∧
       (entry.type = "image" ∨ entry.type = "rawImage")))
    ∧ (ERROR_THRESHOLD < currentErrors →
        test storage imagePreviewSuffixes entrySuffix currentErrors entry = false) :=
  ⟨test_true_iff storage imagePreviewSuffixes entrySuffix currentErrors entry,
   test_false_of_tripped storage imagePreviewSuffixes entrySuffix currentErrors entry⟩

/-- Witness for C1 at a concrete tripped budget and eligible entry. -/
theorem test_eligibility_characterization_witness :
    ERROR_THRESHOLD < 6 ∧
    test (Storage.mk fun _ suffix => suffix == "image-preview-128.jpg")
      ["image-preview-128.jpg"] "similarity-embeddings.json" 6
      (Entry.mk "image") = false :=
  ⟨by decide,
   (test_eligibility_characterization
      (Storage.mk fun _ suffix => suffix == "image-preview-128.jpg")
      ["image-preview-128.jpg"] "similarity-embeddings.json" 6
      (Entry.mk "image")).2 (by decide)⟩

/-- C2 counterexample: the claim says the "too many errors" warning is
emitted exactly once, at the 6th consecutive failure, and never again on the
7th; but after 7 consecutive `addError` calls from a fresh budget the warning
has been logged twice — the 7th failure re-warns. -/
theorem addError_rewarns_on_seventh_failure :
    (addError^[6] { currentErrors := 0, warnCount := 0 }).warnCount = 1 ∧
    (addError^[7] { currentErrors := 0, warnCount := 0 }).warnCount = 2 := by
  constructor <;> rfl

/-- C2 (amended): `addError` emits the "too many errors" warning on every
increment that leaves the counter above the threshold, not only at the
crossing: starting from a fresh budget, after `n` consecutive failures the
counter is `n` and the warning has been emitted `n - 5` times (once at the
crossing 6th failure and once more for each of the 7th, 8th, ... failures). -/
theorem addError_warns_on_every_increment_above_threshold (n : Nat) :
    (addError^[n] { currentErrors := 0, warnCount := 0 }).currentErrors = n ∧
    (addError^[n] { currentErrors := 0, warnCount := 0 }).warnCount = n - ERROR_THRESHOLD := by
  induction n with
  | zero => exact ⟨rfl, rfl⟩
  | succ n ih =>
    rw [Function.iterate_succ_apply']
    generalize addError^[n] { currentErrors := 0, warnCount := 0 } = s at ih
    obtain ⟨h1, h2⟩ := ih
    constructor
    · simp [addError, h1]
    · simp only [addError]
      rw [h1, h2]
      unfold ERROR_THRESHOLD
      split_ifs with h <;> omega

/-- C3 counterexample: with the budget tripped at count 6, one success
recording (the inline decrement of `task`) brings the count back to 5 and the
Task Predicate admits an eligible entry again — the predicate does not reject
all further entries for the remainder of the stream. -/
theorem tripped_then_success_readmits :
    ERROR_THRESHOLD < (6 : Nat) ∧
    (recordSuccess { currentErrors := 6, warnCount := 1 }).currentErrors = 5 ∧
    test (Storage.mk fun _ suffix => suffix == "image-preview-128.jpg")
      ["image-preview-128.jpg"] "similarity-embeddings.json"
      (recordSuccess { currentErrors := 6, warnCount := 1 }).currentErrors
      (Entry.mk "image") = true := by
  refine ⟨by decide, rfl, ?_⟩
  decide

/-- C3 (amended): once the Error Budget count strictly exceeds the threshold
5 the Task Predicate rejects every entry for as long as the count remains
above the threshold; the trip is not latched, however: a success recording
decrements the count (6 back to 5, at most the threshold), after which the
predicate can admit entries again. -/
theorem test_rejects_only_while_above_threshold :
    (∀ (storage : Storage) (imagePreviewSuffixes : List String)
        (entrySuffix : String) (currentErrors : Nat) (entry : Entry),
        ERROR_THRESHOLD < currentErrors →
        test storage imagePreviewSuffixes entrySuffix currentErrors entry = false)
    ∧ (recordSuccess { currentErrors := 6, warnCount := 1 }).currentErrors ≤ ERROR_THRESHOLD :=
  ⟨fun storage ips es c entry h => test_false_of_tripped storage ips es c entry h,
   by decide⟩

/-- Witness for C3 (amended) at a concrete tripped count. -/
theorem test_rejects_only_while_above_threshold_witness :
    test (Storage.mk fun _ _ => true) ["image-preview-128.jpg"] "objects.json" 7
      (Entry.mk "image") = false :=
  test_rejects_only_while_above_threshold.1
    (Storage.mk fun _ _ => true) ["image-preview-128.jpg"] "objects.json" 7
    (Entry.mk "image") (by decide)

/-- C4: over one task run, the Error Budget count is incremented exactly when
the remote call fails (transport error, or HTTP status outside `[100, 300)`),
decremented by 1 floored at 0 exactly when the response body is successfully
written under the output suffix, and unchanged on a local artifact read or
write failure. -/
theorem task_error_budget_policy (env : TaskEnv) (entrySuffix : String) (s : BudgetState) :
    (task env entrySuffix s).budget.currentErrors =
      (if remoteFailed env then s.currentErrors + 1
       else if writeSucceeded env then s.currentErrors - 1
       else s.currentErrors) := by
  obtain ⟨r, q, w⟩ := env
  cases r with
  | err m => simp [task, remoteFailed, writeSucceeded]
  | ok buf =>
    cases q with
    | err m => simp [task, remoteFailed, writeSucceeded, addError]
    | res code body =>
      by_cases hc : code < 100 ∨ code ≥ 300
      · simp [task, remoteFailed, writeSucceeded, addError, hc]
      · cases w with
        | err m => simp [task, remoteFailed, writeSucceeded, hc]
        | ok =>
          simp [task, remoteFailed, writeSucceeded, hc]
          unfold recordSuccess
          split_ifs with h
          · rfl
          · omega

/-- C6: the Enrichment Task always completes and never propagates an error:
on every code path it invokes its completion callback exactly once, with no
error argument. -/
theorem task_always_completes_without_error (env : TaskEnv) (entrySuffix : String)
    (s : BudgetState) : (task env entrySuffix s).cbCalls = [none] := by
  obtain ⟨r, q, w⟩ := env
  cases r with
  | err m => rfl
  | ok buf =>
    cases q with
    | err m => rfl
    | res code body =>
      by_cases hc : code < 100 ∨ code ≥ 300
      · simp [task, hc]
      · cases w with
        | err m => simp [task, hc]
        | ok => simp [task, hc]

/-- C5: starting from a fresh Error Budget, 6 consecutive failure recordings
followed by 6 success recordings return the counter to exactly 0, after which
the Task Predicate again returns true for any otherwise-eligible entry. -/
theorem recovery_after_six_failures_six_successes :
    (recordSuccess^[6] (addError^[6] { currentErrors := 0, warnCount := 0 })).currentErrors = 0 ∧
    ∀ (storage : Storage) (imagePreviewSuffixes : List String) (entrySuffix : String)
      (entry : Entry),
      (getEntryFileBySuffixes storage entry imagePreviewSuffixes).isSome = true →
      storage.hasEntryFile entry entrySuffix = false →
      (entry.type = "image" ∨ entry.type = "rawImage") →
      test storage imagePreviewSuffixes entrySuffix
        (recordSuccess^[6] (addError^[6] { currentErrors := 0, warnCount := 0 })).currentErrors
        entry = true := by
  constructor
  · rfl
  · intro storage ips es entry h1 h2 h3
    have h0 : (recordSuccess^[6] (addError^[6]
        { currentErrors := 0, warnCount := 0 })).currentErrors = 0 := rfl
    exact (test_true_iff storage ips es _ entry).2 (by rw [h0]; exact ⟨by decide, h1, h2, h3⟩)

/-- Witness for C5 at a concrete eligible entry. -/
theorem recovery_after_six_failures_six_successes_witness :
    test (Storage.mk fun _ suffix => suffix == "image-preview-128.jpg")
      ["image-preview-128.jpg"] "similarity-embeddings.json"
      (recordSuccess^[6] (addError^[6] { currentErrors := 0, warnCount := 0 })).currentErrors
      (Entry.mk "image") = true :=
  recovery_after_six_failures_six_successes.2
    (Storage.mk fun _ suffix => suffix == "image-preview-128.jpg")
    ["image-preview-128.jpg"] "similarity-embeddings.json"
    (Entry.mk "image") (by decide) (by decide) (Or.inl rfl)

theorem featureInDisable_isDisabled (config : Option Config) (feature : String)
    (hne : feature ≠ "") (h : featureInDisable config feature) :
    isDisabled config feature = true := by
  unfold isDisabled
  rcases h with h | ⟨l, hl, hmem⟩
  · rw [h]
    have hbe : (feature == "") = false := by
      simp [hne]
    simp [hbe]
  · rw [hl]
    simpa using hmem

/-- C7: whenever a feature's name appears in the `disable` setting (as the
single string value or as a member of the list), the corresponding feature
adapter returns the pass-through `noop` stage, which forwards every entry
unchanged and performs zero HTTP calls, regardless of entry eligibility. -/
theorem disabled_feature_yields_noop (storage : Storage) (common : Common)
    (config : Option Config) :
    (featureInDisable config "similarDetection" →
      similarEmbeddings storage common config = Except.ok Stage.noop) ∧
    (featureInDisable config "objectDetection" →
      objectDetection storage common config = Except.ok Stage.noop) ∧
    (featureInDisable config "faceDetection" →
      faceDetection storage common config = Except.ok Stage.noop) ∧
    (∀ entry, stageForward Stage.noop entry = (none, entry)) ∧
    (∀ (storage2 : Storage) (currentErrors : Nat) (entry : Entry) (env : TaskEnv),
      stageHttpCalls Stage.noop storage2 currentErrors entry env = 0) := by
  refine ⟨fun h => ?_, fun h => ?_, fun h => ?_, fun _ => rfl, fun _ _ _ _ => rfl⟩
  · unfold similarEmbeddings
    rw [if_pos (featureInDisable_isDisabled config _ (by decide) h)]
  · unfold objectDetection
    rw [if_pos (featureInDisable_isDisabled config _ (by decide) h)]
  · unfold faceDetection
    rw [if_pos (featureInDisable_isDisabled config _ (by decide) h)]

/-- Witness for C7: a configuration disabling all three features by list. -/
theorem disabled_feature_yields_noop_witness :
    similarEmbeddings (Storage.mk fun _ _ => false) (Common.mk [])
      (some (Config.mk (some (ExtractorConfig.mk (some (ApiServerConfig.mk none none none
        (some (DisableValue.list ["similarDetection", "objectDetection", "faceDetection"]))))))))
      = Except.ok Stage.noop ∧
    objectDetection (Storage.mk fun _ _ => false) (Common.mk [])
      (some (Config.mk (some (ExtractorConfig.mk (some (ApiServerConfig.mk none none none
        (some (DisableValue.list ["similarDetection", "objectDetection", "faceDetection"]))))))))
      = Except.ok Stage.noop ∧
    faceDetection (Storage.mk fun _ _ => false) (Common.mk [])
      (some (Config.mk (some (ExtractorConfig.mk (some (ApiServerConfig.mk none none none
        (some (DisableValue.list ["similarDetection", "objectDetection", "faceDetection"]))))))))
      = Except.ok Stage.noop :=
  ⟨(disabled_feature_yields_noop (Storage.mk fun _ _ => false) (Common.mk []) _).1
      (Or.inr ⟨["similarDetection", "objectDetection", "faceDetection"], rfl, by decide⟩),
   (disabled_feature_yields_noop (Storage.mk fun _ _ => false) (Common.mk []) _).2.1
      (Or.inr ⟨["similarDetection", "objectDetection", "faceDetection"], rfl, by decide⟩),
   (disabled_feature_yields_noop (Storage.mk fun _ _ => false) (Common.mk []) _).2.2.1
      (Or.inr ⟨["similarDetection", "objectDetection", "faceDetection"], rfl, by decide⟩)⟩

/-- C10: `logPublicApiPrivacyHint` returns the pass-through `noop` stage
exactly when the configuration contains an `extractor.apiServer` block; for
every configuration lacking that block the destructuring of its fields
throws a `TypeError` instead of returning a stage. -/
theorem logPublicApiPrivacyHint_requires_apiServer_block :
    (∀ (config : Option Config) (api : ApiServerConfig),
        apiServerOf config = some api →
        ∃ logs, logPublicApiPrivacyHint config = Except.ok (logs, Stage.noop)) ∧
    (∀ config : Option Config, apiServerOf config = none →
        ∃ msg, logPublicApiPrivacyHint config = Except.error msg) ∧
    (∀ entry, stageForward Stage.noop entry = (none, entry)) := by
  refine ⟨?_, ?_, fun _ => rfl⟩
  · intro config api h
    unfold logPublicApiPrivacyHint
    rw [h]
    exact ⟨_, rfl⟩
  · intro config h
    unfold logPublicApiPrivacyHint
    rw [h]
    exact ⟨_, rfl⟩

/-- Witness for C10: a configuration with the block yields the stage, one
without it throws. -/
theorem logPublicApiPrivacyHint_requires_apiServer_block_witness :
    (∃ logs, logPublicApiPrivacyHint
        (some (Config.mk (some (ExtractorConfig.mk (some
          (ApiServerConfig.mk none none none none))))))
      = Except.ok (logs, Stage.noop)) ∧
    (∃ msg, logPublicApiPrivacyHint none = Except.error msg) :=
  ⟨logPublicApiPrivacyHint_requires_apiServer_block.1 _
      (ApiServerConfig.mk none none none none) rfl,
   logPublicApiPrivacyHint_requires_apiServer_block.2.1 none rfl⟩

theorem writeIndex_index_eq (cwd now directory filename : String) (entriesRef : Nat)
    (heap : Nat → List IndexEntry) (options : IndexOptions) :
    (writeIndex cwd now directory filename entriesRef heap options).index =
      { type := "home-gallery/fileindex@1.0", created := now,
        base := resolvePath cwd directory, data := entriesRef } := by
  unfold writeIndex
  split_ifs <;> rfl

theorem writeIndex_heap_eq (cwd now directory filename : String) (entriesRef : Nat)
    (heap : Nat → List IndexEntry) (options : IndexOptions) :
    (writeIndex cwd now directory filename entriesRef heap options).heap =
      fun r => if r = entriesRef then sortEntries (heap entriesRef) else heap r := by
  unfold writeIndex
  split_ifs <;> rfl

theorem writeIndex_written_eq (cwd now directory filename : String) (entriesRef : Nat)
    (heap : Nat → List IndexEntry) (options : IndexOptions) :
    (writeIndex cwd now directory filename entriesRef heap options).written =
      (if options.dryRun then []
       else [(filename,
         (writeIndex cwd now directory filename entriesRef heap options).index)]) := by
  unfold writeIndex
  split_ifs <;> rfl

/-- C8: `writeIndex` produces a structure whose `type` is the fixed
version-tagged format string, whose `base` is the resolved root path, and
whose `data` holds the entries sorted by directory descending then file
ascending (a permutation of the input, ordered by the comparator); when
`dryRun` is set the structure is returned without writing any file, and
otherwise the same structure is serialized and compressed to the target file
and returned. -/
theorem writeIndex_structure (cwd now directory filename : String) (entriesRef : Nat)
    (heap : Nat → List IndexEntry) (options : IndexOptions) :
    (writeIndex cwd now directory filename entriesRef heap options).index =
      { type := "home-gallery/fileindex@1.0", created := now,
        base := resolvePath cwd directory, data := entriesRef } ∧
    ((writeIndex cwd now directory filename entriesRef heap options).heap
        (writeIndex cwd now directory filename entriesRef heap options).index.data).Perm
      (heap entriesRef) ∧
    List.Pairwise (fun a b => byDirDescFileAsc a b = true)
      ((writeIndex cwd now directory filename entriesRef heap options).heap
        (writeIndex cwd now directory filename entriesRef heap options).index.data) ∧
    (writeIndex cwd now directory filename entriesRef heap options).written =
      (if options.dryRun then []
       else [(filename,
         (writeIndex cwd now directory filename entriesRef heap options).index)]) := by
  have hidx := writeIndex_index_eq cwd now directory filename entriesRef heap options
  have hheap := writeIndex_heap_eq cwd now directory filename entriesRef heap options
  refine ⟨hidx, ?_, ?_, writeIndex_written_eq cwd now directory filename entriesRef heap options⟩
  · rw [hidx, hheap]
    simp
    exact sortEntries_perm _
  · rw [hidx, hheap]
    simp
    exact sortEntries_sorted _

/-- C9: `writeIndex` sorts the caller-supplied entries array in place: after
every call, including a dry run, the array at the argument reference is the
in-place sorted sequence, the returned index's `data` field is that same
array reference (not a copy), and no other array is touched. -/
theorem writeIndex_sorts_argument_in_place (cwd now directory filename : String)
    (entriesRef : Nat) (heap : Nat → List IndexEntry) (options : IndexOptions) :
    (writeIndex cwd now directory filename entriesRef heap options).index.data = entriesRef ∧
    (writeIndex cwd now directory filename entriesRef heap options).heap entriesRef =
      sortEntries (heap entriesRef) ∧
    (∀ r, r ≠ entriesRef →
      (writeIndex cwd now directory filename entriesRef heap options).heap r = heap r) := by
  have hidx := writeIndex_index_eq cwd now directory filename entriesRef heap options
  have hheap := writeIndex_heap_eq cwd now directory filename entriesRef heap options
  refine ⟨by rw [hidx], by rw [hheap]; simp, ?_⟩
  intro r hr
  rw [hheap]
  simp [hr]

/-- Witness for C9: a dry run sorts the argument array and leaves others. -/
theorem writeIndex_sorts_argument_in_place_witness :
    (writeIndex "/cwd" "2026-10-12T00:00:00.000Z" "photos" "index.gz" 0
      (fun _ => [IndexEntry.mk "a" "2", IndexEntry.mk "b" "1"])
      (IndexOptions.mk true)).heap 1 = [IndexEntry.mk "a" "2", IndexEntry.mk "b" "1"] :=
  (writeIndex_sorts_argument_in_place "/cwd" "2026-10-12T00:00:00.000Z" "photos" "index.gz" 0
      (fun _ => [IndexEntry.mk "a" "2", IndexEntry.mk "b" "1"])
      (IndexOptions.mk true)).2.2 1 (by decide)
